import Mathlib

set_option maxRecDepth 100000

/-!
Verification of the client-side cryptographic orchestration layer of a
document-signing web application.  The TypeScript sources are shallowly
embedded: JSON values are an inductive type, the platform `fetch` responses
are explicit inputs, and every network-dependent function is modelled as a
pure function of the responses it would receive.
-/

/-- A JSON value, as produced by `response.json()`.  `undefined` is modelled
by absence (`Option.none` at use sites): a JSON body never contains
`undefined`, and JS object fields holding `undefined` are observationally
absent for every access the embedded code performs. -/
inductive Json where
  | null : Json
  | bool (b : Bool) : Json
  | num (n : Int) : Json
  | str (s : String) : Json
  | arr (xs : List Json) : Json
  | obj (fields : List (String × Json)) : Json

/-- JS property access `j.k`: the first field named `k` of an object,
`none` (undefined) otherwise (including on arrays and primitives). -/
def Json.getField (j : Json) (key : String) : Option Json :=
  match j with
  | .obj fields => (fields.find? (fun p => p.1 == key)).map (fun p => p.2)
  | _ => none

/-- JS truthiness of a JSON value (`null`, `false`, `0`, `""` are falsy). -/
def jsTruthy : Json → Bool
  | .null => false
  | .bool b => b
  | .num n => n != 0
  | .str s => s != ""
  | .arr _ => true
  | .obj _ => true

/-- JS truthiness of a possibly-undefined value. -/
def jsTruthyOpt : Option Json → Bool
  | none => false
  | some v => jsTruthy v

/-- The body of an HTTP response: either parses as JSON or does not
(`response.json()` throws). -/
inductive FetchBody where
  | unparsable : FetchBody
  | parsed (j : Json) : FetchBody

/-- `ApiError` from `src/fe/lib/errors.ts` (fields `message`, `status`,
`data`).  The message is kept as a JSON value because the source passes
`errorData.message` through unchanged when it is truthy. -/
structure ApiError where
  message : Json
  status : Nat
  data : Json

/-- Outcome of `handleFetchResponse`: a parsed success body, a thrown
`ApiError`, a thrown JSON-parse error on a 2xx body, or a thrown
`TypeError` when the non-2xx body parses to `null` and the property access
`errorData.message` faults. -/
inductive FetchOutcome where
  | ok (data : Json) : FetchOutcome
  | apiError (e : ApiError) : FetchOutcome
  | parseError : FetchOutcome
  | typeError : FetchOutcome

/-- `handleFetchResponse` from `src/fe/lib/errors.ts`.  `response.ok` holds
exactly for statuses 200–299.  On a non-ok response the body is parsed if
possible, else replaced by `{message: 'An error occurred'}`.  The inner
`try` wraps only `response.json()`, so when the parsed body is the JSON
literal `null` the subsequent access `errorData.message` throws a
`TypeError` that escapes the function (a JSON body can never be
`undefined`, and every other value tolerates property access); otherwise
the thrown `ApiError` carries `errorData.message || "API error: " +
status`. -/
def handleFetchResponse (status : Nat) (body : FetchBody) : FetchOutcome :=
  if 200 ≤ status ∧ status ≤ 299 then
    match body with
    | .parsed j => .ok j
    | .unparsable => .parseError
  else
    let errorData : Json :=
      match body with
      | .parsed j => j
      | .unparsable => Json.obj [("message", Json.str "An error occurred")]
    match errorData with
    | Json.null => .typeError
    | _ =>
      let msg : Json :=
        match errorData.getField "message" with
        | some v => if jsTruthy v then v else Json.str ("API error: " ++ toString status)
        | none => Json.str ("API error: " ++ toString status)
      .apiError ⟨msg, status, errorData⟩

/-- A fetch as seen by callers: `none` is a transport-level rejection
(network failure), otherwise a status code and a body. -/
def FetchResp := Option (Nat × FetchBody)

/-- Running `fetch` + `handleFetchResponse` inside a `try`: any throw
(network failure, `ApiError`, body-parse error, or the `TypeError` of a
`null` error body) lands in the `catch`. -/
def fetchJson (resp : FetchResp) : Except Unit Json :=
  match resp with
  | none => .error ()
  | some (status, body) =>
    match handleFetchResponse status body with
    | .ok j => .ok j
    | _ => .error ()

/-- `MOCK_ALGORITHMS` from `src/fe/lib/api.ts` (the built-in fallback
algorithm catalog). -/
def MOCK_ALGORITHMS : List Json :=
  [Json.obj [("id", Json.str "algo-1"), ("name", Json.str "ECDSA"),
     ("type", Json.str "Elliptic Curve"),
     ("description", Json.str "Elliptic Curve Digital Signature Algorithm"),
     ("is_default", Json.bool true), ("status", Json.str "enabled")],
   Json.obj [("id", Json.str "algo-2"), ("name", Json.str "RSA"),
     ("type", Json.str "RSA"),
     ("description", Json.str "Rivest-Shamir-Adleman algorithm"),
     ("is_default", Json.bool false), ("status", Json.str "enabled")],
   Json.obj [("id", Json.str "algo-3"), ("name", Json.str "EdDSA"),
     ("type", Json.str "Edwards-curve"),
     ("description", Json.str "Edwards-curve Digital Signature Algorithm"),
     ("is_default", Json.bool false), ("status", Json.str "enabled")]]

/-- One mock curve record of `MOCK_CURVES` in `src/fe/lib/api.ts`. -/
def mockCurve (id name algId algName : String) : Json :=
  Json.obj [("id", Json.str id), ("name", Json.str name),
    ("algorithm_id", Json.str algId), ("algorithm_name", Json.str algName),
    ("status", Json.str "enabled")]

/-- `MOCK_CURVES` from `src/fe/lib/api.ts` (the built-in fallback curve
catalog, keyed by algorithm id). -/
def MOCK_CURVES : List (String × List Json) :=
  [("algo-1",
    [mockCurve "curve-1" "secp256k1" "algo-1" "ECDSA",
     mockCurve "curve-2" "P-256" "algo-1" "ECDSA",
     mockCurve "curve-3" "P-384" "algo-1" "ECDSA",
     mockCurve "curve-4" "P-521" "algo-1" "ECDSA"]),
   ("algo-2",
    [mockCurve "curve-5" "RSA-2048" "algo-2" "RSA",
     mockCurve "curve-6" "RSA-3072" "algo-2" "RSA",
     mockCurve "curve-7" "RSA-4096" "algo-2" "RSA"]),
   ("algo-3",
    [mockCurve "curve-8" "Ed25519" "algo-3" "EdDSA"])]

/-- `MOCK_CURVES[algorithmId]`: `none` when the key is absent. -/
def mockCurvesFor (algorithmId : String) : Option (List Json) :=
  (MOCK_CURVES.find? (fun p => p.1 == algorithmId)).map (fun p => p.2)

/-- `apiService.getAlgorithms` from `src/fe/lib/api.ts`, as a function of
the catalog endpoint's response.  Shapes are tried in source order:
`data.items` as an array, `data` itself as an array, `data.algorithms` as
an array; the mock catalog replaces an empty (or missing) result, and any
thrown error is caught and also yields the mock catalog. -/
def getAlgorithms (resp : FetchResp) : List Json :=
  match fetchJson resp with
  | .error _ => MOCK_ALGORITHMS
  | .ok data =>
    let result : List Json :=
      match data.getField "items" with
      | some (Json.arr xs) => xs
      | _ =>
        match data with
        | Json.arr xs => xs
        | _ =>
          match data.getField "algorithms" with
          | some (Json.arr xs) => xs
          | _ => []
    if result.isEmpty then MOCK_ALGORITHMS else result

/-- JS `algorithms.find(a => a.id === algorithmId)` used by `getCurves` and
`verifyDocument`: strict equality holds only when `a.id` is that string. -/
def findAlgorithmById (algorithms : List Json) (algorithmId : String) : Option Json :=
  algorithms.find? (fun a =>
    match a.getField "id" with
    | some (Json.str s) => s == algorithmId
    | _ => false)

/-- The per-curve record built by the nested (algorithm-details) path of
`apiService.getCurves` (`src/fe/lib/api.ts` lines 447–454): a falsy
`status` is replaced by `'enabled'`, but a truthy one — including
`'disabled'` — is passed through unchanged. -/
def mapDetailCurve (algorithmId algName : String) (curve : Json) : Json :=
  Json.obj (
    (match curve.getField "id" with | some v => [("id", v)] | none => []) ++
    (match curve.getField "name" with | some v => [("name", v)] | none => []) ++
    [("algorithm_id", Json.str algorithmId),
     ("algorithm_name", Json.str algName),
     ("status",
       match curve.getField "status" with
       | some v => if jsTruthy v then v else Json.str "enabled"
       | none => Json.str "enabled")] ++
    (match curve.getField "parameters" with | some v => [("parameters", v)] | none => []))

/-- Shape handling shared by both flat-curve-endpoint paths of `getCurves`:
`data.curves` as an array, else `data` itself as an array, else `[]`. -/
def curvesShape (data : Json) : List Json :=
  match data.getField "curves" with
  | some (Json.arr xs) => xs
  | _ =>
    match data with
    | Json.arr xs => xs
    | _ => []

/-- `apiService.getCurves` from `src/fe/lib/api.ts`, as a function of the
three responses it may consume: the algorithm-catalog response (for the
id→name lookup), the algorithm-details response (nested curves), and the
flat `/curves` response.  Mirrors the source control flow: the nested path
is attempted only when an algorithm with a truthy name is found, its
failures are caught and fall through to the flat fetch; a flat-fetch throw
reaches the outer catch, which returns the mock curves when the id is a
mock key and `[]` otherwise; with no `algorithmId` the flat result is
returned as-is and the outer catch returns `[]`. -/
def getCurves (algorithmId : Option String) (algsResp : FetchResp)
    (detailsResp : FetchResp) (curvesResp : FetchResp) : List Json :=
  match algorithmId with
  | some aid =>
    let algorithms := getAlgorithms algsResp
    let nested : Option (List Json) :=
      match findAlgorithmById algorithms aid with
      | some alg =>
        match alg.getField "name" with
        | some (Json.str nm) =>
          if nm ≠ "" then
            match fetchJson detailsResp with
            | .ok details =>
              match details.getField "curves" with
              | some (Json.arr cs) => some (cs.map (mapDetailCurve aid nm))
              | _ => none
            | .error _ => none
          else none
        | _ => none
      | none => none
    match nested with
    | some result => result
    | none =>
      match fetchJson curvesResp with
      | .error _ => (mockCurvesFor aid).getD []
      | .ok data =>
        let result := curvesShape data
        if result.isEmpty then (mockCurvesFor aid).getD [] else result
  | none =>
    match fetchJson curvesResp with
    | .error _ => []
    | .ok data => curvesShape data

/-- The algorithm-name resolution of `apiService.verifyDocument`
(`src/fe/lib/api.ts` lines 589–605): take the name of the catalog entry
matching `algorithmId` when that name is truthy, else the mock entry's
name, else the literal `"ECDSA"`. -/
def verifyDocumentAlgorithmName (algorithms : List Json) (algorithmId : String) : Json :=
  let fetchedName : Option Json :=
    (findAlgorithmById algorithms algorithmId).bind (fun a => a.getField "name")
  if jsTruthyOpt fetchedName then fetchedName.getD Json.null
  else
    match (findAlgorithmById MOCK_ALGORITHMS algorithmId).bind (fun a => a.getField "name") with
    | some v => if jsTruthy v then v else Json.str "ECDSA"
    | none => Json.str "ECDSA"

/-- The JSON body `verifyDocument` submits to `POST /verify`
(`src/fe/lib/api.ts` lines 639–645). -/
def verifyDocumentRequest (algorithms : List Json) (algorithmId : String)
    (hashedDocument signature publicKey curveName : String) : Json :=
  Json.obj [("document", Json.str hashedDocument),
    ("signature", Json.str signature),
    ("public_key", Json.str publicKey),
    ("algorithm_name", verifyDocumentAlgorithmName algorithms algorithmId),
    ("curve_name", Json.str curveName)]

/-- The verify-response envelope reconciliation of `apiService.verifyDocument`
(`src/fe/lib/api.ts` lines 653–668): when `data.verification` is undefined
but `data.is_valid` is defined, rebuild the canonical
`{verification, meta_data}` shape from the legacy flat fields; otherwise
return the data unchanged.  A JS object field holding `undefined`
(`verification_id`/`verification_time` absent from the legacy body) is
modelled by omitting the field. -/
def verifyNormalize (data : Json) (hashedDocument publicKey curveName : String) : Json :=
  if (data.getField "verification").isNone && (data.getField "is_valid").isSome then
    Json.obj [("verification", (data.getField "is_valid").getD Json.null),
      ("meta_data", Json.obj (
        [("document",
           match data.getField "document_hash" with
           | some v => if jsTruthy v then v else Json.str hashedDocument
           | none => Json.str hashedDocument),
         ("public_key", Json.str publicKey),
         ("curve_name", Json.str curveName),
         ("bit_size", Json.num 256)] ++
        (match data.getField "verification_id" with
         | some v => [("verification_id", v)] | none => []) ++
        (match data.getField "verification_time" with
         | some v => [("verification_time", v)] | none => [])))]
  else data

/-- `DEFAULT_CURVE_BIT_SIZES` from the crypto utilities module
(`src/unnamed/part_006`). -/
def DEFAULT_CURVE_BIT_SIZES : List (String × Nat) :=
  [("secp256k1", 256), ("secp256r1", 256), ("P-256", 256), ("P-384", 384),
   ("P-521", 521), ("ed25519", 256), ("rsa-2048", 2048), ("rsa-4096", 4096)]

/-- `DEFAULT_HASH_ALGORITHMS` from the crypto utilities module
(`src/unnamed/part_006`): the static curve-name → digest-name table. -/
def DEFAULT_HASH_ALGORITHMS : List (String × String) :=
  [("secp256k1", "SHA-256"), ("secp256r1", "SHA-256"), ("P-256", "SHA-256"),
   ("P-384", "SHA-384"), ("P-521", "SHA-512"), ("ed25519", "SHA-512"),
   ("rsa-2048", "SHA-256"), ("rsa-4096", "SHA-256")]

/-- JS `Record<string, T>` lookup `m[k]` on a literal table (first match;
the literals here have distinct keys). -/
def recordLookup (m : List (String × α)) (key : String) : Option α :=
  (m.find? (fun p => p.1 == key)).map (fun p => p.2)

/-- JS `s.replace(pat, rep)` with a string pattern: replace the first
occurrence of `pat` (searching left to right), or leave `s` unchanged when
`pat` does not occur. -/
def replaceFirstChars (pat rep : List Char) : List Char → List Char
  | [] => []
  | c :: cs =>
    if pat.isPrefixOf (c :: cs) then rep ++ (c :: cs).drop pat.length
    else c :: replaceFirstChars pat rep cs

/-- JS `s.replace(pat, rep)` on strings (first occurrence only).  The empty
pattern is a prefix of everything, so it prepends `rep`, as in JS. -/
def replaceFirst (s pat rep : String) : String :=
  ⟨replaceFirstChars pat.data rep.data s.data⟩

/-- `getHashAlgorithmForCurve` from the crypto utilities module
(`src/unnamed/part_006`): a truthy `hash_algorithm` hint from the curve
parameters wins (translated by `hashAlgo.replace('SHA', 'SHA-')`), else the
static table, else `'SHA-256'`.  Curve parameters are modelled as a string
map, which is what every hint-bearing parameter set contains. -/
def getHashAlgorithmForCurve (curveName : String)
    (curveParameters : Option (List (String × String))) : String :=
  let fallback :=
    match recordLookup DEFAULT_HASH_ALGORITHMS curveName with
    | some h => h
    | none => "SHA-256"
  match curveParameters with
  | some ps =>
    match recordLookup ps "hash_algorithm" with
    | some hashAlgo =>
      if hashAlgo ≠ "" then replaceFirst hashAlgo "SHA" "SHA-" else fallback
    | none => fallback
  | none => fallback

/-- Hex digit characters as produced by JS `Number.prototype.toString(16)`
(lowercase). -/
def hexDigit (n : Nat) : Char :=
  match n with
  | 0 => '0' | 1 => '1' | 2 => '2' | 3 => '3' | 4 => '4'
  | 5 => '5' | 6 => '6' | 7 => '7' | 8 => '8' | 9 => '9'
  | 10 => 'a' | 11 => 'b' | 12 => 'c' | 13 => 'd' | 14 => 'e'
  | _ => 'f'

/-- JS `b.toString(16).padStart(2, '0')` for a `Uint8Array` element
(`0 ≤ b < 256`): one lowercase hex digit for `b < 16`, two otherwise, then
left-padded with `'0'` to two characters. -/
def jsByteHex (b : Nat) : List Char :=
  let ds := if b < 16 then [hexDigit b] else [hexDigit (b / 16), hexDigit (b % 16)]
  if ds.length < 2 then '0' :: ds else ds

/-- Numeric value of a hex digit accepted by JS `BigInt('0x…')`
(case-insensitive), `none` for any other character. -/
def hexVal (c : Char) : Option Nat :=
  if 48 ≤ c.toNat ∧ c.toNat ≤ 57 then some (c.toNat - 48)
  else if 97 ≤ c.toNat ∧ c.toNat ≤ 102 then some (c.toNat - 87)
  else if 65 ≤ c.toNat ∧ c.toNat ≤ 70 then some (c.toNat - 55)
  else none

/-- Accumulator loop of hex parsing: `none` on the first invalid digit. -/
def parseHexCore (acc : Nat) : List Char → Option Nat
  | [] => some acc
  | c :: cs =>
    match hexVal c with
    | some v => parseHexCore (16 * acc + v) cs
    | none => none

/-- JS `BigInt('0x' + h)`: `none` models the `SyntaxError` thrown on an
empty or invalid digit string. -/
def parseHex (cs : List Char) : Option Nat :=
  match cs with
  | [] => none
  | _ => parseHexCore 0 cs

/-- Big-endian byte decomposition of `n` into exactly `len` bytes (most
significant first); follows the specification's "parsed back to bytes via
big-endian decoding". -/
def natToBytesBE : Nat → Nat → List Nat
  | 0, _ => []
  | len + 1, n => natToBytesBE len (n / 256) ++ [n % 256]

/-- Digit-accumulating loop of base-10 rendering; the fuel argument only
makes the recursion structural and never runs out when it starts at
`n + 1`. -/
def decimalReprCore : Nat → Nat → List Char → List Char
  | 0, _, acc => acc
  | fuel + 1, n, acc =>
    if n < 10 then hexDigit n :: acc
    else decimalReprCore fuel (n / 10) (hexDigit (n % 10) :: acc)

/-- JS `BigInt.prototype.toString()`: the base-10 rendering of a
non-negative integer (most significant digit first, `"0"` for zero). -/
def decimalRepr (n : Nat) : String :=
  ⟨decimalReprCore (n + 1) n []⟩

/-- `hashToDecimalString` from the crypto utilities module
(`src/unnamed/part_006`): render each byte as two lowercase hex digits,
join, parse as a hex `BigInt`, and print in base 10.  `none` models the
`SyntaxError` JS throws on an empty buffer. -/
def hashToDecimalString (buffer : List Nat) : Option String :=
  (parseHex ((buffer.map jsByteHex).flatten)).map (fun n => decimalRepr n)

/-- Numeric value of a decimal digit, `none` for any other character. -/
def decVal (c : Char) : Option Nat :=
  if 48 ≤ c.toNat ∧ c.toNat ≤ 57 then some (c.toNat - 48) else none

/-- Accumulator loop of decimal parsing: `none` on the first invalid
digit. -/
def parseDecimalCore (acc : Nat) : List Char → Option Nat
  | [] => some acc
  | c :: cs =>
    match decVal c with
    | some v => parseDecimalCore (10 * acc + v) cs
    | none => none

/-- Parse a non-empty base-10 digit string to the integer it denotes. -/
def parseDecimal (cs : List Char) : Option Nat :=
  match cs with
  | [] => none
  | _ => parseDecimalCore 0 cs

/-- The specification's round-trip direction: parse a decimal digest
string back and decode it to `len` bytes big-endian. -/
def decodeDecimalToBytes (len : Nat) (s : String) : Option (List Nat) :=
  (parseDecimal s.data).map (natToBytesBE len)

/-- The digest bytes "reinterpreted as an unsigned big-endian integer" —
this definition follows the specification's words, for comparison with the
source's hex-string detour in `hashToDecimalString`. -/
def beIntOfBytes (bytes : List Nat) : Nat :=
  bytes.foldl (fun acc b => 256 * acc + b) 0

/-- Base64 alphabet used by JS `btoa`. -/
def base64Char (n : Nat) : Char :=
  let alphabet := "ABCDEFGHIJKLMNOPQRSTUVWXYZabcdefghijklmnopqrstuvwxyz0123456789+/".data
  alphabet.getD n 'A'

/-- `arrayBufferToBase64` from the crypto utilities module
(`src/unnamed/part_006`): standard base64 of the raw bytes (the source
builds a binary string and calls `btoa`). -/
def arrayBufferToBase64 : List Nat → String
  | [] => ""
  | [a] =>
    ⟨[base64Char (a / 4), base64Char (a % 4 * 16), '=', '=']⟩
  | [a, b] =>
    ⟨[base64Char (a / 4), base64Char (a % 4 * 16 + b / 16), base64Char (b % 16 * 4), '=']⟩
  | a :: b :: c :: rest =>
    (⟨[base64Char (a / 4), base64Char (a % 4 * 16 + b / 16),
       base64Char (b % 16 * 4 + c / 64), base64Char (c % 64)]⟩ : String) ++
    arrayBufferToBase64 rest

/-- Standard UTF-8 encoding of one character (RFC 3629). -/
def utf8EncodeCharNat (c : Char) : List Nat :=
  let n := c.toNat
  if n < 0x80 then [n]
  else if n < 0x800 then
    [0xC0 ||| (n >>> 6), 0x80 ||| (n &&& 0x3F)]
  else if n < 0x10000 then
    [0xE0 ||| (n >>> 12), 0x80 ||| ((n >>> 6) &&& 0x3F), 0x80 ||| (n &&& 0x3F)]
  else
    [0xF0 ||| (n >>> 18), 0x80 ||| ((n >>> 12) &&& 0x3F),
     0x80 ||| ((n >>> 6) &&& 0x3F), 0x80 ||| (n &&& 0x3F)]

/-- `TextEncoder().encode(document)`: the UTF-8 bytes of the document. -/
def utf8Bytes (s : String) : List Nat :=
  (s.data.map utf8EncodeCharNat).flatten

/-- `calculateDocumentHash` from the crypto utilities module
(`src/unnamed/part_006`), parameterized by the platform digest primitive
(`crypto.subtle.digest`), which is an external collaborator: hash the UTF-8
bytes of the document with the algorithm chosen by
`getHashAlgorithmForCurve`, then encode the digest as a decimal integer
string (or base64 when `asInteger` is false). -/
def calculateDocumentHash (digest : String → List Nat → List Nat)
    (document curveName : String) (curveParameters : Option (List (String × String)))
    (asInteger : Bool) : Option String :=
  let hashAlgorithm := getHashAlgorithmForCurve curveName curveParameters
  let data := utf8Bytes document
  let hashBuffer := digest hashAlgorithm data
  if asInteger then hashToDecimalString hashBuffer
  else some (arrayBufferToBase64 hashBuffer)

/-- 32-bit truncation. -/
def w32 (n : Nat) : Nat := n % 4294967296

/-- 32-bit right rotation (for `x < 2^32`, `0 < n < 32`). -/
def rotr32 (n x : Nat) : Nat := w32 ((x >>> n) ||| (x <<< (32 - n)))

/-- Modelled from the spec: the platform cryptographic primitive provider
exposes "a digest function by algorithm name over raw bytes, returning raw
digest bytes"; the SHA-256 choice function `Ch` per FIPS 180-4. -/
def sha256Ch (x y z : Nat) : Nat := (x &&& y) ^^^ ((x ^^^ 4294967295) &&& z)

/-- Modelled from the spec: SHA-256 majority function `Maj` per FIPS 180-4. -/
def sha256Maj (x y z : Nat) : Nat := (x &&& y) ^^^ (x &&& z) ^^^ (y &&& z)

/-- Modelled from the spec: SHA-256 `Σ0` per FIPS 180-4. -/
def sha256S0 (x : Nat) : Nat := rotr32 2 x ^^^ rotr32 13 x ^^^ rotr32 22 x

/-- Modelled from the spec: SHA-256 `Σ1` per FIPS 180-4. -/
def sha256S1 (x : Nat) : Nat := rotr32 6 x ^^^ rotr32 11 x ^^^ rotr32 25 x

/-- Modelled from the spec: SHA-256 `σ0` per FIPS 180-4. -/
def sha256s0 (x : Nat) : Nat := rotr32 7 x ^^^ rotr32 18 x ^^^ (x >>> 3)

/-- Modelled from the spec: SHA-256 `σ1` per FIPS 180-4. -/
def sha256s1 (x : Nat) : Nat := rotr32 17 x ^^^ rotr32 19 x ^^^ (x >>> 10)

/-- Modelled from the spec: SHA-256 round constants per FIPS 180-4. -/
def sha256K : List Nat :=
  [1116352408, 1899447441, 3049323471, 3921009573, 961987163,
   1508970993, 2453635748, 2870763221, 3624381080, 310598401,
   607225278, 1426881987, 1925078388, 2162078206, 2614888103,
   3248222580, 3835390401, 4022224774, 264347078, 604807628,
   770255983, 1249150122, 1555081692, 1996064986, 2554220882,
   2821834349, 2952996808, 3210313671, 3336571891, 3584528711,
   113926993, 338241895, 666307205, 773529912, 1294757372,
   1396182291, 1695183700, 1986661051, 2177026350, 2456956037,
   2730485921, 2820302411, 3259730800, 3345764771, 3516065817,
   3600352804, 4094571909, 275423344, 430227734, 506948616,
   659060556, 883997877, 958139571, 1322822218, 1537002063,
   1747873779, 1955562222, 2024104815, 2227730452, 2361852424,
   2428436474, 2756734187, 3204031479, 3329325298]

/-- Modelled from the spec: SHA-256 initial hash value per FIPS 180-4. -/
def sha256H0 : List Nat :=
  [1779033703, 3144134277, 1013904242, 2773480762, 1359893119,
   2600822924, 528734635, 1541459225]

/-- Iterate a function `n` times. -/
def iterN (f : α → α) : Nat → α → α
  | 0, x => x
  | n + 1, x => iterN f n (f x)

/-- One message-schedule extension step, on the reversed schedule (most
recent word first): `W_t = σ1 W_{t-2} + W_{t-7} + σ0 W_{t-15} + W_{t-16}`. -/
def sha256ScheduleStep (w : List Nat) : List Nat :=
  w32 (sha256s1 (w.getD 1 0) + w.getD 6 0 + sha256s0 (w.getD 14 0) + w.getD 15 0) :: w

/-- Modelled from the spec: the 64-word SHA-256 message schedule of a
16-word block. -/
def sha256Schedule (block : List Nat) : List Nat :=
  (iterN sha256ScheduleStep 48 block.reverse).reverse

/-- Modelled from the spec: the 64 SHA-256 compression rounds over the
working variables `[a,b,c,d,e,f,g,h]`. -/
def sha256Rounds (state : List Nat) : List (Nat × Nat) → List Nat
  | [] => state
  | (k, wt) :: rest =>
    match state with
    | [a, b, c, d, e, f, g, h] =>
      let t1 := w32 (h + sha256S1 e + sha256Ch e f g + k + wt)
      let t2 := w32 (sha256S0 a + sha256Maj a b c)
      sha256Rounds [w32 (t1 + t2), a, b, c, w32 (d + t1), e, f, g] rest
    | _ => state

/-- Modelled from the spec: SHA-256 compression of one 16-word block into
the running hash value. -/
def sha256Compress (hs block : List Nat) : List Nat :=
  let fin := sha256Rounds hs (sha256K.zip (sha256Schedule block))
  List.zipWith (fun x y => w32 (x + y)) hs fin

/-- Modelled from the spec: SHA-256 padding — append `0x80`, zero-pad to 56
mod 64, append the bit length as 8 big-endian bytes. -/
def sha256Pad (msg : List Nat) : List Nat :=
  msg ++ 128 :: List.replicate ((119 - msg.length % 64) % 64) 0 ++
    natToBytesBE 8 (8 * msg.length)

/-- Big-endian 4-byte grouping of a byte list into 32-bit words. -/
def bytesToWords : List Nat → List Nat
  | a :: b :: c :: d :: rest => (((a * 256 + b) * 256 + c) * 256 + d) :: bytesToWords rest
  | _ => []

/-- Modelled from the spec: fold SHA-256 compression over the padded
message's 16-word blocks. -/
def sha256Process (hs : List Nat) : List Nat → List Nat
  | w0 :: w1 :: w2 :: w3 :: w4 :: w5 :: w6 :: w7 ::
    w8 :: w9 :: w10 :: w11 :: w12 :: w13 :: w14 :: w15 :: rest =>
    sha256Process
      (sha256Compress hs
        [w0, w1, w2, w3, w4, w5, w6, w7, w8, w9, w10, w11, w12, w13, w14, w15])
      rest
  | _ => hs

/-- Modelled from the spec: the SHA-256 digest (32 bytes) of a byte list,
standing in for the platform provider's `crypto.subtle.digest('SHA-256')`. -/
def sha256 (msg : List Nat) : List Nat :=
  ((sha256Process sha256H0 (bytesToWords (sha256Pad msg))).map (natToBytesBE 4)).flatten

/-- Modelled from the spec: the platform digest primitive dispatching on
the Web Crypto algorithm name; only SHA-256 is modelled here, other names
return an empty buffer (the theorems' hypotheses exclude them). -/
def webCryptoDigest (alg : String) (data : List Nat) : List Nat :=
  if alg == "SHA-256" then sha256 data else []

/-- The `name` a resolving curve fetch writes via
`setCurveName(curvesData[0].name)`; curve records carry string names. -/
def firstCurveName (data : List Json) : String :=
  match data.head?.bind (fun c => c.getField "name") with
  | some (Json.str s) => s
  | _ => ""

/-- The state the sign/verify pages keep for the algorithm→curve cascade
(`src/fe/app/(dashboard)/sign/page.tsx`, `src/unnamed/part_001`): the two
selections, the displayed curve list, the loading flag, and — for
bookkeeping of in-flight `getCurves` calls — the algorithm id each issued
fetch was made for, in issue order. -/
structure CascadeState where
  algorithmId : String
  curveName : String
  curves : List Json
  isLoadingCurves : Bool
  issued : List String

/-- The initial page state (`useState("")`, `useState([])`). -/
def initialCascadeState : CascadeState :=
  { algorithmId := "", curveName := "", curves := [], isLoadingCurves := false,
    issued := [] }

/-- An event of the cooperatively scheduled page: a user (or initial-load)
algorithm selection, or the completion — successful or failed — of the
`k`-th issued curve fetch, carrying the curve list the fetch produced. -/
inductive CascadeEvent where
  | selectAlgorithm (id : String) : CascadeEvent
  | curvesResolve (k : Nat) (data : List Json) : CascadeEvent
  | curvesReject (k : Nat) : CascadeEvent

/-- One step of the curve-fetch effect of the sign/verify pages
(`useEffect` on `algorithmId`, lines 68–97 of
`src/fe/app/(dashboard)/sign/page.tsx` and 71–100 of
`src/unnamed/part_001`).  Selecting a different, non-empty algorithm id
re-runs the effect: it clears `curveName` and issues a fetch tagged with
the id it was issued for.  When the `k`-th issued fetch completes, its
callbacks run unconditionally — the source compares nothing against the
current selection — so a resolution stores its list (and, when non-empty,
its first curve's name) no matter which algorithm is now selected; a
rejection stores `[]`. -/
def cascadeStep (s : CascadeState) (e : CascadeEvent) : CascadeState :=
  match e with
  | .selectAlgorithm id =>
    if id = s.algorithmId then s
    else if id = "" then { s with algorithmId := id }
    else
      { s with
        algorithmId := id
        curveName := ""
        isLoadingCurves := true
        issued := s.issued ++ [id] }
  | .curvesResolve k data =>
    if k < s.issued.length then
      { s with
        curves := data
        curveName := if data.isEmpty then s.curveName else firstCurveName data
        isLoadingCurves := false }
    else s
  | .curvesReject k =>
    if k < s.issued.length then
      { s with curves := [], isLoadingCurves := false }
    else s

/-- Run the page from its initial state over a list of events. -/
def cascadeRun (events : List CascadeEvent) : CascadeState :=
  events.foldl cascadeStep initialCascadeState

/-- Reference form of base-10 rendering (no fuel), used to reason about
`decimalReprCore`. -/
def decRepAux (n : Nat) : List Char :=
  if n < 10 then [hexDigit n] else decRepAux (n / 10) ++ [hexDigit (n % 10)]
decreasing_by exact Nat.div_lt_self (by omega) (by omega)

/-- Field `k` of the `meta_data` member of a verify result. -/
def Json.metaField (j : Json) (k : String) : Option Json :=
  (j.getField "meta_data").bind (fun m => m.getField k)

theorem hexVal_hexDigit : ∀ n < 16, hexVal (hexDigit n) = some n := by decide

theorem jsByteHex_eq : ∀ b < 256, jsByteHex b = [hexDigit (b / 16), hexDigit (b % 16)] := by
  decide

theorem jsByteHex_ne_nil (b : Nat) : jsByteHex b ≠ [] := by
  unfold jsByteHex
  split <;> simp_all

theorem parseHexCore_jsByteHex (b : Nat) (hb : b < 256) (acc : Nat) (rest : List Char) :
    parseHexCore acc (jsByteHex b ++ rest) = parseHexCore (256 * acc + b) rest := by
  rw [jsByteHex_eq b hb]
  have h1 : b / 16 < 16 := by omega
  have h2 : b % 16 < 16 := by omega
  simp only [List.cons_append, List.nil_append, parseHexCore,
    hexVal_hexDigit _ h1, hexVal_hexDigit _ h2]
  have : 16 * (16 * acc + b / 16) + b % 16 = 256 * acc + b := by omega
  rw [this]
  rfl

theorem parseHexCore_flatten (bs : List Nat) : ∀ acc, (∀ b ∈ bs, b < 256) →
    parseHexCore acc ((bs.map jsByteHex).flatten) =
      some (bs.foldl (fun a b => 256 * a + b) acc) := by
  induction bs with
  | nil => intro acc _; simp [parseHexCore]
  | cons b bs ih =>
    intro acc h
    have hb : b < 256 := h b (by simp)
    simp only [List.map_cons, List.flatten_cons, List.foldl_cons]
    rw [parseHexCore_jsByteHex b hb]
    exact ih _ (fun x hx => h x (by simp [hx]))

theorem parseHex_eq_core (cs : List Char) (h : cs ≠ []) : parseHex cs = parseHexCore 0 cs := by
  cases cs with
  | nil => exact absurd rfl h
  | cons c cs => rfl

theorem hashToDecimalString_eq (bs : List Nat) (hne : bs ≠ []) (h : ∀ b ∈ bs, b < 256) :
    hashToDecimalString bs = some (decimalRepr (beIntOfBytes bs)) := by
  have hflat : (bs.map jsByteHex).flatten ≠ [] := by
    cases bs with
    | nil => exact absurd rfl hne
    | cons b bs =>
      simp only [List.map_cons, List.flatten_cons]
      intro he
      exact jsByteHex_ne_nil b (List.append_eq_nil.mp he).1
  unfold hashToDecimalString
  rw [parseHex_eq_core _ hflat, parseHexCore_flatten bs 0 h]
  rfl

/-- C2: for every document string and digest algorithm supplied by the
platform provider, `calculateDocumentHash` (with `asInteger = true`)
returns exactly the digest of the document's UTF-8 bytes reinterpreted as
an unsigned big-endian integer and rendered as a base-10 string. -/
theorem calculateDocumentHash_bigEndianDecimal
    (digest : String → List Nat → List Nat) (document curveName : String)
    (params : Option (List (String × String)))
    (hne : digest (getHashAlgorithmForCurve curveName params) (utf8Bytes document) ≠ [])
    (hlt : ∀ b ∈ digest (getHashAlgorithmForCurve curveName params) (utf8Bytes document),
      b < 256) :
    calculateDocumentHash digest document curveName params true =
      some (decimalRepr (beIntOfBytes
        (digest (getHashAlgorithmForCurve curveName params) (utf8Bytes document)))) := by
  unfold calculateDocumentHash
  exact hashToDecimalString_eq _ hne hlt

/-- Witness for C2 at the spec's Example 1: document `"hello"`, curve
`secp256k1` (hence SHA-256), with the digest supplied by the modelled
platform provider; the fingerprint is the decimal form of the well-known
digest `2cf24dba…9824` read big-endian. -/
theorem calculateDocumentHash_bigEndianDecimal_witness :
    (webCryptoDigest (getHashAlgorithmForCurve "secp256k1" none) (utf8Bytes "hello") ≠ [] ∧
     ∀ b ∈ webCryptoDigest (getHashAlgorithmForCurve "secp256k1" none) (utf8Bytes "hello"),
       b < 256) ∧
    webCryptoDigest (getHashAlgorithmForCurve "secp256k1" none) (utf8Bytes "hello") =
      [0x2c, 0xf2, 0x4d, 0xba, 0x5f, 0xb0, 0xa3, 0x0e, 0x26, 0xe8, 0x3b, 0x2a, 0xc5, 0xb9,
       0xe2, 0x9e, 0x1b, 0x16, 0x1e, 0x5c, 0x1f, 0xa7, 0x42, 0x5e, 0x73, 0x04, 0x33, 0x62,
       0x93, 0x8b, 0x98, 0x24] ∧
    calculateDocumentHash webCryptoDigest "hello" "secp256k1" none true =
      some "20329878786436204988385760252021328656300425018755239228739303522659023427620" := by
  refine ⟨⟨by decide, by decide⟩, by decide, ?_⟩
  rw [calculateDocumentHash_bigEndianDecimal webCryptoDigest "hello" "secp256k1" none
    (by decide) (by decide)]
  decide

theorem decVal_hexDigit : ∀ n < 10, decVal (hexDigit n) = some n := by decide

theorem decRepAux_ne_nil (n : Nat) : decRepAux n ≠ [] := by
  unfold decRepAux
  split <;> simp

theorem decimalReprCore_eq :
    ∀ fuel n acc, n < fuel → decimalReprCore fuel n acc = decRepAux n ++ acc := by
  intro fuel
  induction fuel with
  | zero => intro n acc h; omega
  | succ fuel ih =>
    intro n acc h
    by_cases h10 : n < 10
    · rw [decimalReprCore, if_pos h10, decRepAux, if_pos h10]
      rfl
    · rw [decimalReprCore, if_neg h10, decRepAux, if_neg h10,
        ih (n / 10) _ (by omega), List.append_assoc]
      rfl

theorem parseDecimalCore_append (xs : List Char) : ∀ ys acc,
    parseDecimalCore acc (xs ++ ys) =
      match parseDecimalCore acc xs with
      | some a => parseDecimalCore a ys
      | none => none := by
  induction xs with
  | nil => intro ys acc; rfl
  | cons c xs ih =>
    intro ys acc
    simp only [List.cons_append, parseDecimalCore]
    cases h : decVal c with
    | none => rfl
    | some v => exact ih ys (10 * acc + v)

theorem parseDecimalCore_decRepAux (n : Nat) : ∀ acc,
    parseDecimalCore acc (decRepAux n) =
      some (acc * 10 ^ (decRepAux n).length + n) := by
  induction n using Nat.strong_induction_on with
  | _ n ih =>
    intro acc
    by_cases h : n < 10
    · rw [decRepAux, if_pos h]
      simp [parseDecimalCore, decVal_hexDigit _ h]
      omega
    · rw [decRepAux, if_neg h, parseDecimalCore_append, ih (n / 10) (by omega)]
      have h2 : n % 10 < 10 := by omega
      simp only [parseDecimalCore, decVal_hexDigit _ h2, List.length_append,
        List.length_singleton]
      have hdm : 10 * (n / 10) + n % 10 = n := by omega
      rw [pow_succ]
      congr 1
      ring_nf
      omega

theorem parseDecimal_eq_core (cs : List Char) (h : cs ≠ []) :
    parseDecimal cs = parseDecimalCore 0 cs := by
  cases cs with
  | nil => exact absurd rfl h
  | cons c cs => rfl

theorem parseDecimal_decimalRepr (n : Nat) : parseDecimal (decimalRepr n).data = some n := by
  have hdata : (decimalRepr n).data = decRepAux n := by
    show decimalReprCore (n + 1) n [] = decRepAux n
    rw [decimalReprCore_eq (n + 1) n [] (by omega), List.append_nil]
  rw [hdata, parseDecimal_eq_core _ (decRepAux_ne_nil n), parseDecimalCore_decRepAux]
  simp

theorem natToBytesBE_beIntOfBytes (bs : List Nat) (h : ∀ b ∈ bs, b < 256) :
    natToBytesBE bs.length (beIntOfBytes bs) = bs := by
  induction bs using List.reverseRecOn with
  | nil => rfl
  | append_singleton bs b ih =>
    have hb : b < 256 := h b (by simp)
    have hbs : ∀ x ∈ bs, x < 256 := fun x hx => h x (by simp [hx])
    have hfold : beIntOfBytes (bs ++ [b]) = 256 * beIntOfBytes bs + b := by
      simp [beIntOfBytes, List.foldl_append]
    rw [hfold]
    show natToBytesBE (bs ++ [b]).length (256 * beIntOfBytes bs + b) = bs ++ [b]
    rw [List.length_append, List.length_singleton, natToBytesBE]
    have h1 : (256 * beIntOfBytes bs + b) / 256 = beIntOfBytes bs := by omega
    have h2 : (256 * beIntOfBytes bs + b) % 256 = b := by omega
    rw [h1, h2, ih hbs]

/-- C7: for every digest of length 32, 48 or 64 bytes, rendering it with
`hashToDecimalString` and parsing the decimal string back with big-endian
byte decoding reproduces the original digest bytes exactly. -/
theorem hashToDecimalString_roundTrip (bs : List Nat)
    (hlen : bs.length = 32 ∨ bs.length = 48 ∨ bs.length = 64)
    (hlt : ∀ b ∈ bs, b < 256) :
    ∃ s, hashToDecimalString bs = some s ∧
      decodeDecimalToBytes bs.length s = some bs := by
  have hne : bs ≠ [] := by
    rintro rfl
    simp at hlen
  refine ⟨decimalRepr (beIntOfBytes bs), hashToDecimalString_eq bs hne hlt, ?_⟩
  unfold decodeDecimalToBytes
  rw [parseDecimal_decimalRepr]
  simp [natToBytesBE_beIntOfBytes bs hlt]

/-- Witness for C7 at the 32-byte digest SHA-256("hello"). -/
theorem hashToDecimalString_roundTrip_witness :
    ((sha256 (utf8Bytes "hello")).length = 32 ∨ (sha256 (utf8Bytes "hello")).length = 48 ∨
      (sha256 (utf8Bytes "hello")).length = 64) ∧
    (∀ b ∈ sha256 (utf8Bytes "hello"), b < 256) ∧
    ∃ s, hashToDecimalString (sha256 (utf8Bytes "hello")) = some s ∧
      decodeDecimalToBytes (sha256 (utf8Bytes "hello")).length s =
        some (sha256 (utf8Bytes "hello")) :=
  ⟨Or.inl (by decide), by decide,
    hashToDecimalString_roundTrip _ (Or.inl (by decide)) (by decide)⟩

/-- Counterexample for C3: the static table does not map the RSA-3072
family at all (under the table's own lowercase spelling or the catalog's
uppercase one), and the Edwards curve as named in the application's own
catalog (`Ed25519`) misses the table, so it resolves to SHA-256, not the
claimed SHA-512. -/
theorem getHashAlgorithmForCurve_tableGap_counterexample :
    recordLookup DEFAULT_HASH_ALGORITHMS "rsa-3072" = none ∧
    recordLookup DEFAULT_HASH_ALGORITHMS "RSA-3072" = none ∧
    ¬ recordLookup DEFAULT_HASH_ALGORITHMS "rsa-3072" = some "SHA-256" ∧
    getHashAlgorithmForCurve "Ed25519" none = "SHA-256" ∧
    getHashAlgorithmForCurve "Edwards25519" none = "SHA-256" := by decide

/-- C3 (amended): digest selection tries a truthy `hash_algorithm` hint
first (translated by replacing the first `"SHA"` with `"SHA-"`), then the
static table — whose actual entries are secp256k1/secp256r1/P-256 →
SHA-256, P-384 → SHA-384, P-521 → SHA-512, ed25519 → SHA-512 and
rsa-2048/rsa-4096 → SHA-256, with rsa-3072 absent — and otherwise
defaults to SHA-256 (which is also what the absent rsa-3072 entry ends up
resolving to). -/
theorem getHashAlgorithmForCurve_resolution :
    (∀ name ps h, recordLookup ps "hash_algorithm" = some h → h ≠ "" →
      getHashAlgorithmForCurve name (some ps) = replaceFirst h "SHA" "SHA-") ∧
    (∀ name, getHashAlgorithmForCurve name none =
      match recordLookup DEFAULT_HASH_ALGORITHMS name with
      | some d => d
      | none => "SHA-256") ∧
    recordLookup DEFAULT_HASH_ALGORITHMS "secp256k1" = some "SHA-256" ∧
    recordLookup DEFAULT_HASH_ALGORITHMS "secp256r1" = some "SHA-256" ∧
    recordLookup DEFAULT_HASH_ALGORITHMS "P-256" = some "SHA-256" ∧
    recordLookup DEFAULT_HASH_ALGORITHMS "P-384" = some "SHA-384" ∧
    recordLookup DEFAULT_HASH_ALGORITHMS "P-521" = some "SHA-512" ∧
    recordLookup DEFAULT_HASH_ALGORITHMS "ed25519" = some "SHA-512" ∧
    recordLookup DEFAULT_HASH_ALGORITHMS "rsa-2048" = some "SHA-256" ∧
    recordLookup DEFAULT_HASH_ALGORITHMS "rsa-4096" = some "SHA-256" ∧
    recordLookup DEFAULT_HASH_ALGORITHMS "rsa-3072" = none ∧
    getHashAlgorithmForCurve "rsa-3072" none = "SHA-256" ∧
    (∀ name, recordLookup DEFAULT_HASH_ALGORITHMS name = none →
      getHashAlgorithmForCurve name none = "SHA-256") ∧
    replaceFirst "SHA256" "SHA" "SHA-" = "SHA-256" := by
  refine ⟨?_, ?_, by decide, by decide, by decide, by decide, by decide, by decide,
    by decide, by decide, by decide, by decide, ?_, by decide⟩
  · intro name ps h hy hne
    unfold getHashAlgorithmForCurve
    simp only [hy]
    simp [hne]
  · intro name
    rfl
  · intro name h
    unfold getHashAlgorithmForCurve
    simp only [h]

/-- Witness for C3 (amended): a parameter hint `SHA512` overrides the
table entry of `P-256`, and an unknown curve falls through to SHA-256. -/
theorem getHashAlgorithmForCurve_resolution_witness :
    recordLookup [("hash_algorithm", "SHA512")] "hash_algorithm" = some "SHA512" ∧
    "SHA512" ≠ "" ∧
    getHashAlgorithmForCurve "P-256" (some [("hash_algorithm", "SHA512")]) =
      replaceFirst "SHA512" "SHA" "SHA-" ∧
    getHashAlgorithmForCurve "P-256" (some [("hash_algorithm", "SHA512")]) = "SHA-512" ∧
    recordLookup DEFAULT_HASH_ALGORITHMS "brainpoolP256r1" = none ∧
    getHashAlgorithmForCurve "brainpoolP256r1" none = "SHA-256" := by
  obtain ⟨h1, _, _, _, _, _, _, _, _, _, _, _, h13, _⟩ := getHashAlgorithmForCurve_resolution
  exact ⟨by decide, by decide, h1 "P-256" _ "SHA512" (by decide) (by decide), by decide,
    by decide, h13 "brainpoolP256r1" (by decide)⟩

/-- Counterexample for C6: a 500 response whose body fails to parse does
not normalize to the status-synthesized message `"API error: 500"` — the
catch branch substitutes `{message: 'An error occurred'}` first, and that
message is truthy, so the `ApiError` carries `"An error occurred"`. -/
theorem handleFetchResponse_unparsable500_counterexample :
    handleFetchResponse 500 .unparsable =
      .apiError ⟨Json.str "An error occurred", 500,
        Json.obj [("message", Json.str "An error occurred")]⟩ ∧
    Json.str "An error occurred" ≠ Json.str "API error: 500" := by
  constructor
  · rfl
  · intro h
    injection h with h'
    exact absurd h' (by decide)

/-- C6 (amended): for every non-2xx response with an unparsable body, the
normalized `ApiError` carries the status code and the fixed message
`"An error occurred"`; the status-synthesized `"API error: <status>"`
message is produced only when the body parses as JSON other than `null`
without a truthy `message` field, and a body parsing to `null` makes the
handler throw a `TypeError` instead of constructing any `ApiError`. -/
theorem handleFetchResponse_nonOk (status : Nat) (h : status < 200 ∨ 299 < status) :
    handleFetchResponse status .unparsable =
      .apiError ⟨Json.str "An error occurred", status,
        Json.obj [("message", Json.str "An error occurred")]⟩ ∧
    (∀ j, j ≠ Json.null → jsTruthyOpt (j.getField "message") = false →
      handleFetchResponse status (.parsed j) =
        .apiError ⟨Json.str ("API error: " ++ toString status), status, j⟩) ∧
    handleFetchResponse status (.parsed Json.null) = .typeError := by
  have hok : ¬ (200 ≤ status ∧ status ≤ 299) := by omega
  refine ⟨?_, ?_, ?_⟩
  · rw [handleFetchResponse, if_neg hok]
    rfl
  · intro j hnull hj
    rw [handleFetchResponse, if_neg hok]
    cases j with
    | null => exact absurd rfl hnull
    | bool b => rfl
    | num n => rfl
    | str t => rfl
    | arr xs => rfl
    | obj fs =>
      cases hm : (Json.obj fs).getField "message" with
      | none => simp [hm]
      | some v =>
        rw [hm] at hj
        simp only [jsTruthyOpt] at hj
        simp [hm, hj]
  · rw [handleFetchResponse, if_neg hok]

/-- Witness for C6 (amended) at status 500: an unparsable body, a parsed
non-null body lacking a message field, and the `null` body that makes the
source fault with a `TypeError`. -/
theorem handleFetchResponse_nonOk_witness :
    (500 < 200 ∨ 299 < 500) ∧
    handleFetchResponse 500 .unparsable =
      .apiError ⟨Json.str "An error occurred", 500,
        Json.obj [("message", Json.str "An error occurred")]⟩ ∧
    Json.obj [] ≠ Json.null ∧
    handleFetchResponse 500 (.parsed (Json.obj [])) =
      .apiError ⟨Json.str "API error: 500", 500, Json.obj []⟩ ∧
    handleFetchResponse 500 (.parsed Json.null) = .typeError := by
  have h := handleFetchResponse_nonOk 500 (Or.inr (by decide))
  exact ⟨Or.inr (by decide), h.1, fun he => Json.noConfusion he,
    h.2.1 (Json.obj []) (fun he => Json.noConfusion he) rfl, h.2.2⟩

/-- C8: a legacy flat verify envelope (no `verification` field, an
`is_valid` field present) is reconciled into the canonical shape by a pure
mapping: `verification` takes the legacy boolean, `meta_data.document`
takes `document_hash` (falling back to the submitted fingerprint when the
field is falsy), `public_key`/`curve_name` echo the request,
`bit_size` is the constant 256, and `verification_id`/`verification_time`
are carried over verbatim. -/
theorem verifyNormalize_legacy (data v : Json) (hd pk cn : String)
    (h1 : data.getField "verification" = none)
    (h2 : data.getField "is_valid" = some v) :
    (verifyNormalize data hd pk cn).getField "verification" = some v ∧
    (verifyNormalize data hd pk cn).metaField "document" =
      some (match data.getField "document_hash" with
        | some d => if jsTruthy d then d else Json.str hd
        | none => Json.str hd) ∧
    (verifyNormalize data hd pk cn).metaField "public_key" = some (Json.str pk) ∧
    (verifyNormalize data hd pk cn).metaField "curve_name" = some (Json.str cn) ∧
    (verifyNormalize data hd pk cn).metaField "bit_size" = some (Json.num 256) ∧
    (verifyNormalize data hd pk cn).metaField "verification_id" =
      data.getField "verification_id" ∧
    (verifyNormalize data hd pk cn).metaField "verification_time" =
      data.getField "verification_time" := by
  have hcond : ((data.getField "verification").isNone &&
      (data.getField "is_valid").isSome) = true := by
    rw [h1, h2]
    rfl
  unfold verifyNormalize
  rw [if_pos hcond, h2]
  cases hdh : data.getField "document_hash" with
  | none =>
    cases hvi : data.getField "verification_id" with
    | none =>
      cases hvt : data.getField "verification_time" with
      | none => simp [Json.getField, Json.metaField, List.find?]
      | some t => simp [Json.getField, Json.metaField, List.find?]
    | some i =>
      cases hvt : data.getField "verification_time" with
      | none => simp [Json.getField, Json.metaField, List.find?]
      | some t => simp [Json.getField, Json.metaField, List.find?]
  | some d =>
    cases hvi : data.getField "verification_id" with
    | none =>
      cases hvt : data.getField "verification_time" with
      | none => simp [Json.getField, Json.metaField, List.find?]
      | some t => simp [Json.getField, Json.metaField, List.find?]
    | some i =>
      cases hvt : data.getField "verification_time" with
      | none => simp [Json.getField, Json.metaField, List.find?]
      | some t => simp [Json.getField, Json.metaField, List.find?]

/-- Witness for C8 at the spec's Example 2:
`{is_valid: true, document_hash: "123", verification_id: "v1"}` normalizes
to a canonical result with `verification = true`, document fingerprint
`"123"`, verification id `"v1"` and bit size 256. -/
theorem verifyNormalize_legacy_witness :
    (Json.obj [("is_valid", Json.bool true), ("document_hash", Json.str "123"),
      ("verification_id", Json.str "v1")]).getField "verification" = none ∧
    (Json.obj [("is_valid", Json.bool true), ("document_hash", Json.str "123"),
      ("verification_id", Json.str "v1")]).getField "is_valid" = some (Json.bool true) ∧
    (verifyNormalize (Json.obj [("is_valid", Json.bool true),
      ("document_hash", Json.str "123"), ("verification_id", Json.str "v1")])
      "42" "PK" "secp256k1").getField "verification" = some (Json.bool true) ∧
    (verifyNormalize (Json.obj [("is_valid", Json.bool true),
      ("document_hash", Json.str "123"), ("verification_id", Json.str "v1")])
      "42" "PK" "secp256k1").metaField "document" = some (Json.str "123") ∧
    (verifyNormalize (Json.obj [("is_valid", Json.bool true),
      ("document_hash", Json.str "123"), ("verification_id", Json.str "v1")])
      "42" "PK" "secp256k1").metaField "verification_id" = some (Json.str "v1") ∧
    (verifyNormalize (Json.obj [("is_valid", Json.bool true),
      ("document_hash", Json.str "123"), ("verification_id", Json.str "v1")])
      "42" "PK" "secp256k1").metaField "bit_size" = some (Json.num 256) := by
  have h := verifyNormalize_legacy
    (Json.obj [("is_valid", Json.bool true), ("document_hash", Json.str "123"),
      ("verification_id", Json.str "v1")])
    (Json.bool true) "42" "PK" "secp256k1" rfl rfl
  exact ⟨rfl, rfl, h.1, h.2.1, h.2.2.2.2.2.1, h.2.2.2.2.1⟩

/-- C10: when `algorithmId` matches no entry of the available catalog list
and none of the built-in fallback algorithms, `verifyDocument` does not
fail — it resolves the algorithm name to the literal `"ECDSA"` and the
submitted request body carries `algorithm_name = "ECDSA"`. -/
theorem verifyDocument_unknownAlgorithm_ECDSA (algorithms : List Json) (aid : String)
    (h1 : findAlgorithmById algorithms aid = none)
    (h2 : findAlgorithmById MOCK_ALGORITHMS aid = none)
    (hd sg pk cn : String) :
    verifyDocumentAlgorithmName algorithms aid = Json.str "ECDSA" ∧
    (verifyDocumentRequest algorithms aid hd sg pk cn).getField "algorithm_name" =
      some (Json.str "ECDSA") := by
  have hname : verifyDocumentAlgorithmName algorithms aid = Json.str "ECDSA" := by
    unfold verifyDocumentAlgorithmName
    simp only [h1, h2]
    rfl
  refine ⟨hname, ?_⟩
  unfold verifyDocumentRequest
  rw [hname]
  simp [Json.getField, List.find?]

/-- Witness for C10: an id unknown to both an (empty) fetched catalog and
the mock catalog resolves to `"ECDSA"` in the submitted request. -/
theorem verifyDocument_unknownAlgorithm_ECDSA_witness :
    findAlgorithmById [] "algo-404" = none ∧
    findAlgorithmById MOCK_ALGORITHMS "algo-404" = none ∧
    verifyDocumentAlgorithmName [] "algo-404" = Json.str "ECDSA" ∧
    (verifyDocumentRequest [] "algo-404" "77" "sig" "pk" "secp256k1").getField
      "algorithm_name" = some (Json.str "ECDSA") := by
  have h := verifyDocument_unknownAlgorithm_ECDSA [] "algo-404" rfl rfl
    "77" "sig" "pk" "secp256k1"
  exact ⟨rfl, rfl, h.1, h.2⟩

/-- Counterexample for C4: for the body
`{items: [], algorithms: [{id: "algo-9", name: "Custom"}]}` the claimed
order (bare array, `items`, `algorithms`, first non-empty wins) would
return the `algorithms` entry, but the source selects the `items` shape
first, finds it empty, and substitutes the mock catalog instead. -/
theorem getAlgorithms_shapeOrder_counterexample :
    getAlgorithms (some (200, .parsed (Json.obj
      [("items", Json.arr []),
       ("algorithms", Json.arr [Json.obj
         [("id", Json.str "algo-9"), ("name", Json.str "Custom")]])]))) =
      MOCK_ALGORITHMS ∧
    MOCK_ALGORITHMS ≠
      [Json.obj [("id", Json.str "algo-9"), ("name", Json.str "Custom")]] := by
  constructor
  · rfl
  · intro h
    have := congrArg List.length h
    simp [MOCK_ALGORITHMS] at this

/-- C4 (amended): `getAlgorithms` tries `data.items`, then `data` itself,
then `data.algorithms`, selecting the first that *is* an array — even an
empty one — and falls back to the built-in catalog when the network call
fails, the status is not 2xx, the body is unparsable, no shape matches, or
the selected array is empty. -/
theorem getAlgorithms_shapes :
    (getAlgorithms none = MOCK_ALGORITHMS) ∧
    (∀ status body, ¬ (200 ≤ status ∧ status ≤ 299) →
      getAlgorithms (some (status, body)) = MOCK_ALGORITHMS) ∧
    (∀ status, getAlgorithms (some (status, .unparsable)) = MOCK_ALGORITHMS) ∧
    (∀ data xs, data.getField "items" = some (Json.arr xs) →
      getAlgorithms (some (200, .parsed data)) =
        if xs.isEmpty then MOCK_ALGORITHMS else xs) ∧
    (∀ xs, getAlgorithms (some (200, .parsed (Json.arr xs))) =
      if xs.isEmpty then MOCK_ALGORITHMS else xs) ∧
    (∀ fs xs, (Json.obj fs).getField "items" = none →
      (Json.obj fs).getField "algorithms" = some (Json.arr xs) →
      getAlgorithms (some (200, .parsed (Json.obj fs))) =
        if xs.isEmpty then MOCK_ALGORITHMS else xs) := by
  have hok : (200 ≤ 200 ∧ 200 ≤ 299) := by omega
  refine ⟨rfl, ?_, ?_, ?_, ?_, ?_⟩
  · intro status body h
    cases body with
    | unparsable => simp [getAlgorithms, fetchJson, handleFetchResponse, h]
    | parsed j => cases j <;> simp [getAlgorithms, fetchJson, handleFetchResponse, h]
  · intro status
    by_cases h : 200 ≤ status ∧ status ≤ 299 <;>
      simp [getAlgorithms, fetchJson, handleFetchResponse, h]
  · intro data xs h
    simp only [getAlgorithms, fetchJson, handleFetchResponse, if_pos hok, h]
  · intro xs
    simp only [getAlgorithms, fetchJson, handleFetchResponse, if_pos hok, Json.getField]
  · intro fs xs hi h
    simp only [getAlgorithms, fetchJson, handleFetchResponse, if_pos hok, hi, h]

/-- Witness for C4 (amended): a 503 response falls back to the mock
catalog; an `items` envelope and an `algorithms`-only envelope are each
unwrapped. -/
theorem getAlgorithms_shapes_witness :
    ¬ (200 ≤ 503 ∧ 503 ≤ 299) ∧
    getAlgorithms (some (503, .parsed Json.null)) = MOCK_ALGORITHMS ∧
    (Json.obj [("items", Json.arr [Json.str "a"])]).getField "items" =
      some (Json.arr [Json.str "a"]) ∧
    getAlgorithms (some (200, .parsed (Json.obj [("items", Json.arr [Json.str "a"])]))) =
      [Json.str "a"] ∧
    (Json.obj [("algorithms", Json.arr [Json.str "b"])]).getField "items" = none ∧
    (Json.obj [("algorithms", Json.arr [Json.str "b"])]).getField "algorithms" =
      some (Json.arr [Json.str "b"]) ∧
    getAlgorithms (some (200,
      .parsed (Json.obj [("algorithms", Json.arr [Json.str "b"])]))) = [Json.str "b"] := by
  obtain ⟨_, h2, _, h4, _, h6⟩ := getAlgorithms_shapes
  refine ⟨by omega, h2 503 _ (by omega), rfl, ?_, rfl, rfl, ?_⟩
  · exact h4 (Json.obj [("items", Json.arr [Json.str "a"])]) [Json.str "a"] rfl
  · exact h6 [("algorithms", Json.arr [Json.str "b"])] [Json.str "b"] rfl rfl

/-- Counterexample for C5: with the catalog offline (mock algorithms) and a
nested algorithm-details response carrying a curve whose status is
`disabled`, `getCurves` returns that curve with its `disabled` status
intact — no central filtering happens — and the page's default selection
(`curvesData[0].name`) would pick exactly that disabled curve. -/
theorem getCurves_disabled_counterexample :
    getCurves (some "algo-1") none
      (some (200, .parsed (Json.obj [("curves", Json.arr [Json.obj
        [("id", Json.str "curve-x"), ("name", Json.str "weak"),
         ("status", Json.str "disabled")]])]))) none =
      [Json.obj [("id", Json.str "curve-x"), ("name", Json.str "weak"),
        ("algorithm_id", Json.str "algo-1"), ("algorithm_name", Json.str "ECDSA"),
        ("status", Json.str "disabled")]] ∧
    (Json.obj [("id", Json.str "curve-x"), ("name", Json.str "weak"),
      ("algorithm_id", Json.str "algo-1"), ("algorithm_name", Json.str "ECDSA"),
      ("status", Json.str "disabled")]).getField "status" =
        some (Json.str "disabled") ∧
    Json.str "disabled" ≠ Json.str "enabled" ∧
    firstCurveName [Json.obj [("id", Json.str "curve-x"), ("name", Json.str "weak"),
      ("algorithm_id", Json.str "algo-1"), ("algorithm_name", Json.str "ECDSA"),
      ("status", Json.str "disabled")]] = "weak" := by
  refine ⟨rfl, rfl, ?_, rfl⟩
  intro h
  injection h with h'
  exact absurd h' (by decide)

/-- C5 (amended): the built-in fallback curves are all `enabled` and the
flat endpoint is asked for `status=enabled` server-side, but the nested
algorithm-details path performs no status filtering: it returns every
curve of the details response, passing a truthy `status` through verbatim
(only a falsy or missing status is replaced by `enabled`), so a `disabled`
curve from that path is returned and, when first, becomes the
auto-selected default. -/
theorem getCurves_nested_passthrough (aid nm : String) (alg details : Json)
    (cs : List Json) (algsResp detailsResp curvesResp : FetchResp)
    (h1 : findAlgorithmById (getAlgorithms algsResp) aid = some alg)
    (h2 : alg.getField "name" = some (Json.str nm))
    (h3 : nm ≠ "")
    (h4 : fetchJson detailsResp = .ok details)
    (h5 : details.getField "curves" = some (Json.arr cs)) :
    getCurves (some aid) algsResp detailsResp curvesResp =
      cs.map (mapDetailCurve aid nm) ∧
    (∀ c v, c.getField "status" = some v → jsTruthy v →
      (mapDetailCurve aid nm c).getField "status" = some v) ∧
    (∀ p ∈ MOCK_CURVES, ∀ c ∈ p.2,
      c.getField "status" = some (Json.str "enabled")) := by
  refine ⟨?_, ?_, ?_⟩
  · simp only [getCurves, h1, h2, h4, h5]
    simp [h3]
  · intro c v hc hv
    unfold mapDetailCurve
    rw [hc]
    cases hid : c.getField "id" with
    | none =>
      cases hnm : c.getField "name" with
      | none =>
        cases hp : c.getField "parameters" with
        | none => simp [Json.getField, List.find?, hv]
        | some q => simp [Json.getField, List.find?, hv]
      | some w =>
        cases hp : c.getField "parameters" with
        | none => simp [Json.getField, List.find?, hv]
        | some q => simp [Json.getField, List.find?, hv]
    | some u =>
      cases hnm : c.getField "name" with
      | none =>
        cases hp : c.getField "parameters" with
        | none => simp [Json.getField, List.find?, hv]
        | some q => simp [Json.getField, List.find?, hv]
      | some w =>
        cases hp : c.getField "parameters" with
        | none => simp [Json.getField, List.find?, hv]
        | some q => simp [Json.getField, List.find?, hv]
  · intro p hp c hc
    fin_cases hp <;> fin_cases hc <;> rfl

/-- Witness for C5 (amended): concrete nested response with one disabled
curve; the nested path returns it mapped, its truthy `disabled` status is
preserved, and the mock curves are all enabled. -/
theorem getCurves_nested_passthrough_witness :
    findAlgorithmById (getAlgorithms none) "algo-1" =
      some (Json.obj [("id", Json.str "algo-1"), ("name", Json.str "ECDSA"),
        ("type", Json.str "Elliptic Curve"),
        ("description", Json.str "Elliptic Curve Digital Signature Algorithm"),
        ("is_default", Json.bool true), ("status", Json.str "enabled")]) ∧
    "ECDSA" ≠ "" ∧
    fetchJson (some (200, .parsed (Json.obj [("curves", Json.arr
      [Json.obj [("id", Json.str "curve-x"), ("status", Json.str "disabled")]])]))) =
      .ok (Json.obj [("curves", Json.arr
        [Json.obj [("id", Json.str "curve-x"), ("status", Json.str "disabled")]])]) ∧
    getCurves (some "algo-1") none
      (some (200, .parsed (Json.obj [("curves", Json.arr
        [Json.obj [("id", Json.str "curve-x"), ("status", Json.str "disabled")]])])))
      none =
      [Json.obj [("id", Json.str "curve-x"), ("status", Json.str "disabled")]].map
        (mapDetailCurve "algo-1" "ECDSA") ∧
    (mapDetailCurve "algo-1" "ECDSA"
      (Json.obj [("id", Json.str "curve-x"), ("status", Json.str "disabled")])).getField
        "status" = some (Json.str "disabled") ∧
    (∀ p ∈ MOCK_CURVES, ∀ c ∈ p.2,
      c.getField "status" = some (Json.str "enabled")) := by
  have h := getCurves_nested_passthrough "algo-1" "ECDSA"
    (Json.obj [("id", Json.str "algo-1"), ("name", Json.str "ECDSA"),
      ("type", Json.str "Elliptic Curve"),
      ("description", Json.str "Elliptic Curve Digital Signature Algorithm"),
      ("is_default", Json.bool true), ("status", Json.str "enabled")])
    (Json.obj [("curves", Json.arr
      [Json.obj [("id", Json.str "curve-x"), ("status", Json.str "disabled")]])])
    [Json.obj [("id", Json.str "curve-x"), ("status", Json.str "disabled")]]
    none (some (200, .parsed (Json.obj [("curves", Json.arr
      [Json.obj [("id", Json.str "curve-x"), ("status", Json.str "disabled")]])])))
    none rfl rfl (by decide) rfl rfl
  exact ⟨rfl, by decide, rfl, h.1,
    h.2.1 (Json.obj [("id", Json.str "curve-x"), ("status", Json.str "disabled")])
      (Json.str "disabled") rfl (by decide), h.2.2⟩

/-- Counterexample for C9: with every network call failing, `getCurves`
returns the empty list both for an algorithm id outside the built-in
table and for the no-argument call — the fallback is not always
non-empty. -/
theorem getCurves_emptyFallback_counterexample :
    getCurves (some "algo-404") none none none = [] ∧
    getCurves none none none none = [] :=
  ⟨rfl, rfl⟩

/-- C9 (amended): `getAlgorithms` never returns an empty list (on any
response, failing or not), and `getCurves` under total network failure
returns the non-empty built-in curve list for the three built-in
algorithm ids — but the empty list for every other id and for the
no-argument call. -/
theorem getAlgorithms_getCurves_fallback :
    (∀ resp, getAlgorithms resp ≠ []) ∧
    (getCurves (some "algo-1") none none none = (mockCurvesFor "algo-1").getD [] ∧
      getCurves (some "algo-1") none none none ≠ []) ∧
    (getCurves (some "algo-2") none none none = (mockCurvesFor "algo-2").getD [] ∧
      getCurves (some "algo-2") none none none ≠ []) ∧
    (getCurves (some "algo-3") none none none = (mockCurvesFor "algo-3").getD [] ∧
      getCurves (some "algo-3") none none none ≠ []) ∧
    (∀ aid, findAlgorithmById MOCK_ALGORITHMS aid = none → mockCurvesFor aid = none →
      getCurves (some aid) none none none = []) ∧
    getCurves none none none none = [] := by
  refine ⟨?_, ⟨rfl, ?_⟩, ⟨rfl, ?_⟩, ⟨rfl, ?_⟩, ?_, rfl⟩
  · intro resp
    rcases h : fetchJson resp with e | data
    · simp [getAlgorithms, h, MOCK_ALGORITHMS]
    · simp only [getAlgorithms, h]
      split
      · simp [MOCK_ALGORITHMS]
      · rename_i h2
        intro he
        exact h2 (by rw [he]; rfl)
  · intro h
    have hl := congrArg List.length h
    rw [show (getCurves (some "algo-1") none none none).length = 4 from rfl] at hl
    simp at hl
  · intro h
    have hl := congrArg List.length h
    rw [show (getCurves (some "algo-2") none none none).length = 3 from rfl] at hl
    simp at hl
  · intro h
    have hl := congrArg List.length h
    rw [show (getCurves (some "algo-3") none none none).length = 1 from rfl] at hl
    simp at hl
  · intro aid h1 h2
    simp only [getCurves, show getAlgorithms none = MOCK_ALGORITHMS from rfl, h1, h2,
      fetchJson]
    rfl

/-- Witness for C9 (amended): offline, `algo-1` still gets its non-empty
mock curves while the unknown `algo-404` gets the empty list. -/
theorem getAlgorithms_getCurves_fallback_witness :
    getAlgorithms none ≠ [] ∧
    getCurves (some "algo-1") none none none ≠ [] ∧
    findAlgorithmById MOCK_ALGORITHMS "algo-404" = none ∧
    mockCurvesFor "algo-404" = none ∧
    getCurves (some "algo-404") none none none = [] := by
  obtain ⟨h1, ⟨_, h2⟩, _, _, h5, _⟩ := getAlgorithms_getCurves_fallback
  exact ⟨h1 none, h2, rfl, rfl, h5 "algo-404" rfl rfl⟩

/-- Counterexample for C1: selections A → B → A (ids `algo-1`, `algo-3`,
`algo-1`) with B's curve fetch resolving last.  The effect has no staleness
check, so B's response is applied when it arrives: the final state shows
algorithm `algo-1` selected but B's curve list (and B's first curve as the
selected curve name) — the stale response is not discarded. -/
theorem cascadeRun_staleResponse_counterexample :
    (cascadeRun [.selectAlgorithm "algo-1", .selectAlgorithm "algo-3",
      .selectAlgorithm "algo-1",
      .curvesResolve 0 [Json.obj [("id", Json.str "c-a"), ("name", Json.str "alpha")]],
      .curvesResolve 2 [Json.obj [("id", Json.str "c-a"), ("name", Json.str "alpha")]],
      .curvesResolve 1 [Json.obj [("id", Json.str "c-b"),
        ("name", Json.str "beta")]]]).algorithmId = "algo-1" ∧
    (cascadeRun [.selectAlgorithm "algo-1", .selectAlgorithm "algo-3",
      .selectAlgorithm "algo-1",
      .curvesResolve 0 [Json.obj [("id", Json.str "c-a"), ("name", Json.str "alpha")]],
      .curvesResolve 2 [Json.obj [("id", Json.str "c-a"), ("name", Json.str "alpha")]],
      .curvesResolve 1 [Json.obj [("id", Json.str "c-b"),
        ("name", Json.str "beta")]]]).curves =
      [Json.obj [("id", Json.str "c-b"), ("name", Json.str "beta")]] ∧
    (cascadeRun [.selectAlgorithm "algo-1", .selectAlgorithm "algo-3",
      .selectAlgorithm "algo-1",
      .curvesResolve 0 [Json.obj [("id", Json.str "c-a"), ("name", Json.str "alpha")]],
      .curvesResolve 2 [Json.obj [("id", Json.str "c-a"), ("name", Json.str "alpha")]],
      .curvesResolve 1 [Json.obj [("id", Json.str "c-b"),
        ("name", Json.str "beta")]]]).curveName = "beta" ∧
    [Json.obj [("id", Json.str "c-b"), ("name", Json.str "beta")]] ≠
      [Json.obj [("id", Json.str "c-a"), ("name", Json.str "alpha")]] := by
  refine ⟨rfl, rfl, rfl, ?_⟩
  intro h
  have := congrArg firstCurveName h
  rw [show firstCurveName [Json.obj [("id", Json.str "c-b"), ("name", Json.str "beta")]] =
    "beta" from rfl] at this
  rw [show firstCurveName [Json.obj [("id", Json.str "c-a"), ("name", Json.str "alpha")]] =
    "alpha" from rfl] at this
  exact absurd this (by decide)

/-- C1 (amended): the curve-fetch effect applies responses in completion
order with no staleness discard: for selections A → B → A (all non-empty,
A ≠ B) whose three fetches resolve in the order first-A, second-A, then B,
the final state still has A selected but displays B's curve list, with
B's first curve auto-selected when B's list is non-empty. -/
theorem cascadeRun_lastResolveWins (a b : String) (la la2 lb : List Json)
    (hab : a ≠ b) (ha : a ≠ "") (hb : b ≠ "") (hlb : lb.isEmpty = false) :
    ((cascadeRun [.selectAlgorithm a, .selectAlgorithm b, .selectAlgorithm a,
      .curvesResolve 0 la, .curvesResolve 2 la2,
      .curvesResolve 1 lb]).algorithmId = a ∧
     (cascadeRun [.selectAlgorithm a, .selectAlgorithm b, .selectAlgorithm a,
      .curvesResolve 0 la, .curvesResolve 2 la2,
      .curvesResolve 1 lb]).curves = lb ∧
     (cascadeRun [.selectAlgorithm a, .selectAlgorithm b, .selectAlgorithm a,
      .curvesResolve 0 la, .curvesResolve 2 la2,
      .curvesResolve 1 lb]).curveName = firstCurveName lb) := by
  simp [cascadeRun, cascadeStep, initialCascadeState, ha, hb, hab, Ne.symm hab, hlb]

/-- Witness for C1 (amended) at ids `algo-1`/`algo-3` and a one-curve list
for B. -/
theorem cascadeRun_lastResolveWins_witness :
    ("algo-1" ≠ "algo-3" ∧ "algo-1" ≠ "" ∧ "algo-3" ≠ "" ∧
      ([Json.obj [("name", Json.str "beta")]] : List Json).isEmpty = false) ∧
    (cascadeRun [.selectAlgorithm "algo-1", .selectAlgorithm "algo-3",
      .selectAlgorithm "algo-1", .curvesResolve 0 [], .curvesResolve 2 [],
      .curvesResolve 1 [Json.obj [("name", Json.str "beta")]]]).curves =
      [Json.obj [("name", Json.str "beta")]] := by
  refine ⟨⟨by decide, by decide, by decide, rfl⟩, ?_⟩
  exact (cascadeRun_lastResolveWins "algo-1" "algo-3" [] []
    [Json.obj [("name", Json.str "beta")]] (by decide) (by decide) (by decide) rfl).2.1
